import Mathlib

/-
Verification of the MIDI playback transport of the midi-gen repository.

Shallow embedding conventions:
* Python floats for times and tempi are modelled by `ℚ` (exact arithmetic).
* `time.time()` is modelled by an explicit `now : ℚ` argument to every
  operation that reads the wall clock; calling two operations with the same
  `now` models "immediately after" (zero elapsed wall-clock time).
* A `PlaybackController` instance is a record `PCState`; methods are
  functions `PCState → ... → PCState` (plus a list of emitted effects where
  a claim needs them).
* The FluidSynth player object is modelled by its availability bit
  (`fluidsynth_player`): in `__init__` the attribute is either a working
  player or `None`, and no code path changes that afterwards.
* Effects visible outside the controller (Output Sink commands, scheduler
  thread lifecycle) are collected in a `List CEvent`; purely internal calls
  into the scheduler (update_notes, reset_playback_position) do not
  produce events.
-/

/-- A pretty_midi note as used by the playback core (src/midi data model):
pitch and velocity are MIDI integers, times are seconds, channel 0-15. -/
structure Note where
  pitch : ℤ
  velocity : ℤ
  start_time : ℚ
  end_time : ℚ
  channel : ℤ
deriving DecidableEq, Repr

/-- Effects a controller operation emits to the outside world: Output Sink
commands and scheduler-thread lifecycle transitions. -/
inductive CEvent where
  | allNotesOff
  | threadStart
  | threadStop (join : Bool)
  | progChange (channel program : ℤ)
deriving DecidableEq, Repr

/-- The mutable attributes of `PlaybackController` (src/midi/playback_controller.py,
`__init__`).  `fluidsynth_player` is the availability of the FluidSynth backend
(`self.fluidsynth_player is not None`); `note_scheduler` is whether a scheduler
object exists; `stop_flag` is the shared `threading.Event`. -/
structure PCState where
  fluidsynth_player : Bool
  note_scheduler : Bool
  stop_flag : Bool
  notes : List Note
  is_playing_internal : Bool
  is_playing_for_scheduler : Bool
  paused : Bool
  current_playback_time_sec : ℚ
  playback_start_real_time : ℚ
  pause_start_time_sec : ℚ
  tempo_bpm : ℚ
  tempo_scale_factor : ℚ
deriving DecidableEq, Repr

namespace PlaybackController

/-- `get_current_position` (lines 225-232).  While playing it derives the
position from the wall clock and also stores it into
`current_playback_time_sec` (line 228) before returning it; while paused or
stopped it returns the frozen value and writes nothing.  Returns the float
result together with the post-call state. -/
def get_current_position (s : PCState) (now : ℚ) : ℚ × PCState :=
  if s.is_playing_internal && !s.paused then
    let t := (now - s.playback_start_real_time) * s.tempo_scale_factor
    (t, { s with current_playback_time_sec := t })
  else if s.paused then
    (s.pause_start_time_sec, s)
  else
    (s.current_playback_time_sec, s)

/-- `_ensure_scheduler` (lines 54-80): with no FluidSynth player it sets
`note_scheduler = None`; otherwise it creates the scheduler when absent
(the target can never differ from the current player in this model because
the player attribute never changes after `__init__`), or refreshes the
scheduler's note list when present (internal, no emitted effect). -/
def ensure_scheduler (s : PCState) : PCState :=
  if !s.fluidsynth_player then { s with note_scheduler := false }
  else { s with note_scheduler := true }

/-- `play` (lines 113-147).  Guards: no player, empty note list, or already
playing (after `_ensure_scheduler`) return without touching transport state.
Otherwise clears the stop flag, raises the playing flags, re-anchors the
wall clock (resume from `pause_start_time_sec` when paused, else start from
`current_playback_time_sec`) and starts the scheduler thread. -/
def play (s : PCState) (now : ℚ) : PCState × List CEvent :=
  if !s.fluidsynth_player then (s, [])
  else if s.notes.isEmpty then (s, [])
  else
    let s := ensure_scheduler s
    if s.is_playing_internal && !s.paused then (s, [])
    else
      let s := { s with stop_flag := false, is_playing_internal := true,
                        is_playing_for_scheduler := true }
      if s.paused then
        ({ s with playback_start_real_time :=
                    now - s.pause_start_time_sec / s.tempo_scale_factor,
                  paused := false }, [CEvent.threadStart])
      else
        ({ s with playback_start_real_time :=
                    now - s.current_playback_time_sec / s.tempo_scale_factor },
         [CEvent.threadStart])

/-- `pause` (lines 149-162).  Note the source order: the `paused` and playing
flags are flipped FIRST, and only then is `get_current_position()` called to
"store accurate pause time" — so the call takes the paused branch and returns
the previous `pause_start_time_sec`, not the live position. -/
def pause (s : PCState) (now : ℚ) : PCState × List CEvent :=
  if s.is_playing_internal && !s.paused then
    let s1 := { s with paused := true, is_playing_internal := false,
                       is_playing_for_scheduler := false }
    let r := get_current_position s1 now
    let s2 := { r.2 with pause_start_time_sec := r.1 }
    (s2, if s2.fluidsynth_player then [CEvent.allNotesOff] else [])
  else (s, [])

/-- `stop` (lines 165-181): lowers all playing flags, stops the scheduler
thread when one exists (the thread's stop routine issues a final all-notes-off
and is signalled through `stop_flag`; spec section 4.2), else sends
all-notes-off directly when a player exists, then zeroes both stored times. -/
def stop (s : PCState) : PCState × List CEvent :=
  let s1 := { s with is_playing_internal := false,
                     is_playing_for_scheduler := false, paused := false }
  let r : PCState × List CEvent :=
    if s1.note_scheduler then
      ({ s1 with stop_flag := true }, [CEvent.allNotesOff, CEvent.threadStop true])
    else if s1.fluidsynth_player then (s1, [CEvent.allNotesOff])
    else (s1, [])
  ({ r.1 with current_playback_time_sec := 0, pause_start_time_sec := 0 }, r.2)

/-- `seek` (lines 184-222).  Without a player only the two stored times are
set (clamped at 0).  With a player: all-notes-off first, both stored times
set to the clamped target, the wall-clock anchor recomputed, and - when
actively playing with a scheduler present - the scheduler thread restarted
(its stop routine sets `stop_flag`, which is cleared again before the new
start, so the net flag is false). -/
def seek (s : PCState) (position_sec now : ℚ) : PCState × List CEvent :=
  if !s.fluidsynth_player then
    let p := max 0 position_sec
    ({ s with current_playback_time_sec := p, pause_start_time_sec := p }, [])
  else
    let p := max 0 position_sec
    let s1 := { s with current_playback_time_sec := p,
                       pause_start_time_sec := p,
                       playback_start_real_time := now - p / s.tempo_scale_factor }
    if s1.is_playing_internal && !s1.paused then
      if s1.note_scheduler then
        ({ s1 with stop_flag := false, is_playing_for_scheduler := true },
         [CEvent.allNotesOff, CEvent.threadStop false, CEvent.threadStart])
      else (s1, [CEvent.allNotesOff])
    else (s1, [CEvent.allNotesOff])

/-- `set_tempo` (lines 250-266): rejects `bpm <= 0` before touching anything;
otherwise captures the current position via `get_current_position()` (which
itself caches while playing), sets the tempo fields, and re-anchors while
playing or paused so the musical position is continuous. -/
def set_tempo (s : PCState) (bpm now : ℚ) : PCState :=
  if bpm ≤ 0 then s
  else
    let r := get_current_position s now
    let s1 := { r.2 with tempo_bpm := bpm, tempo_scale_factor := bpm / 120 }
    if s1.is_playing_internal || s1.paused then
      { s1 with playback_start_real_time := now - r.1 / s1.tempo_scale_factor }
    else s1

/-- `set_notes` (lines 83-110): with a player, runs `stop()` first and then
refreshes or creates the scheduler; without one, lowers the flags by hand.
Either way the note list is replaced and both stored times reset to 0. -/
def set_notes (s : PCState) (notes : List Note) : PCState × List CEvent :=
  if s.fluidsynth_player then
    let r := stop s
    let s2 := { r.1 with notes := notes, current_playback_time_sec := 0,
                         pause_start_time_sec := 0 }
    (ensure_scheduler s2, r.2)
  else
    ({ s with is_playing_internal := false, is_playing_for_scheduler := false,
              paused := false, notes := notes,
              current_playback_time_sec := 0, pause_start_time_sec := 0 }, [])

/-- `toggle_playback` (lines 240-248): pause when `is_playing`, else play. -/
def toggle_playback (s : PCState) (now : ℚ) : PCState × List CEvent :=
  if s.is_playing_internal && !s.paused then pause s now else play s now

/-- `set_instrument` (lines 278-295): forwards a program change when the
player exists (the forwarding is wrapped in try/except in the source), else
only logs. -/
def set_instrument (s : PCState) (program_number channel : ℤ) :
    PCState × List CEvent :=
  if s.fluidsynth_player then (s, [CEvent.progChange channel program_number])
  else (s, [])

/-- `cleanup` (lines 268-273): calls `stop()`, then evaluates
`self.device_manager.close_device()`.  No code in the class ever assigns
`device_manager` (the DeviceManager import at the top of the file is
commented out as removed), so the attribute access raises `AttributeError`
unconditionally, after stop's effects have happened.  The Bool records that
the call raised. -/
def cleanup (s : PCState) : (PCState × List CEvent) × Bool :=
  (stop s, true)

/-- The controller state right after `__init__` (lines 14-52), given whether
the FluidSynthPlayer came up. -/
def initState (avail : Bool) : PCState :=
  { fluidsynth_player := avail
    note_scheduler := false
    stop_flag := false
    notes := []
    is_playing_internal := false
    is_playing_for_scheduler := false
    paused := false
    current_playback_time_sec := 0
    playback_start_real_time := 0
    pause_start_time_sec := 0
    tempo_bpm := 120
    tempo_scale_factor := 1 }

end PlaybackController

namespace NoteScheduler

/-- A dispatched scheduler event: `idx` is the position of the originating
note in the installed list (a ghost tag identifying "this note" for claims
about per-note dispatch counts), `isOn` distinguishes note-on from note-off,
and `channel`/`pitch` are taken from that note. -/
structure SEv where
  idx : ℕ
  isOn : Bool
  channel : ℤ
  pitch : ℤ
deriving DecidableEq, Repr

/-- Modelled from the spec: src/midi/note_scheduler.py is not under src/
(only its import and call sites in playback_controller.py are), so the
Scheduler Cursor of spec section 3 is modelled from the spec's words: per
note, whether it has already been started and whether it is currently
sounding, reset whenever the Controller repositions. -/
structure Slot where
  note : Note
  started : Bool
  active : Bool
deriving DecidableEq, Repr

/-- Modelled from the spec (section 4.2, step 2): a not-yet-started note
fires its note-on when `start_time <= current position < end_time`. -/
def fireOn (p : ℚ) (s : Slot) : Bool :=
  !s.started && decide (s.note.start_time ≤ p) && decide (p < s.note.end_time)

/-- Marking after a note-on: started and active (spec section 4.2, step 2). -/
def markOn (p : ℚ) (s : Slot) : Slot :=
  if fireOn p s then { s with started := true, active := true } else s

/-- Modelled from the spec (section 4.2, step 3): an active note fires its
note-off when `end_time <= current position`. -/
def fireOff (p : ℚ) (s : Slot) : Bool :=
  s.active && decide (s.note.end_time ≤ p)

/-- Marking after a note-off: no longer active (started stays true). -/
def markOff (p : ℚ) (s : Slot) : Slot :=
  if fireOff p s then { s with active := false } else s

/-- The note-on event a slot at list position `i` emits. -/
def onEv (i : ℕ) (s : Slot) : SEv := ⟨i, true, s.note.channel, s.note.pitch⟩

/-- The note-off event a slot at list position `i` emits. -/
def offEv (i : ℕ) (s : Slot) : SEv := ⟨i, false, s.note.channel, s.note.pitch⟩

/-- One pass of the loop over the slot list: the events emitted by the slots
satisfying `pred`, tagged with their list positions starting at `i0`. -/
def passEvs (pred : Slot → Bool) (ev : ℕ → Slot → SEv) :
    List Slot → ℕ → List SEv
  | [], _ => []
  | s :: rest, i0 =>
    (if pred s then [ev i0 s] else []) ++ passEvs pred ev rest (i0 + 1)

/-- Modelled from the spec (section 4.2): one full playback run of the
dispatch loop.  `ps` is the sequence of virtual positions the loop reads on
its successive wakes while the Controller is actively playing (wakes during
which the playing signal is down dispatch nothing and change no bookkeeping,
so they are omitted).  On each wake the loop first dispatches note-on for
every due not-yet-started note (step 2), then note-off for every expired
active note (step 3). -/
def runSched : List Slot → List ℚ → List SEv
  | _, [] => []
  | slots, p :: ps =>
    passEvs (fireOn p) onEv slots 0
      ++ passEvs (fireOff p) offEv (slots.map (markOn p)) 0
      ++ runSched ((slots.map (markOn p)).map (markOff p)) ps

/-- The fresh bookkeeping for a note list, as after
`reset_playback_position` (spec section 4.2: clears all started/active
bookkeeping). -/
def initSlots (notes : List Note) : List Slot :=
  notes.map (fun n => ⟨n, false, false⟩)

/-- The subtrace of events belonging to the note at list position `i`. -/
def evsFor (i : ℕ) (tr : List SEv) : List SEv :=
  tr.filter (fun e => e.idx == i)

/-- The events a single slot contributes across a run, in order: its
(possible) note-on of a wake, then its (possible) note-off of the same wake,
then its events of the later wakes.  `runSched` interleaves the other slots'
events between these, but preserves this per-slot order. -/
def noteTrace (i : ℕ) : Slot → List ℚ → List SEv
  | _, [] => []
  | s, p :: ps =>
    (if fireOn p s then [onEv i s] else [])
      ++ (if fireOff p (markOn p s) then [offEv i (markOn p s)] else [])
      ++ noteTrace i (markOff p (markOn p s)) ps

end NoteScheduler

/-
src/midi/midi_event_utils.py: the dispatch helpers.  Python exceptions are
modelled by `Except String`; a helper that can raise returns
`Except String (List DEvent)` where the event list is what reached the
backend.  Whether the underlying backend call raises is an oracle bit
`backendFail` quantified over in the claims ("for every argument value").
-/

/-- A raw MIDI message reaching the backend. -/
inductive DEvent where
  | noteOn (channel pitch velocity : ℤ)
  | noteOff (channel pitch : ℤ)
  | cc (channel controller value : ℤ)
deriving DecidableEq, Repr

/-- The runtime type of the `device_or_player` argument:
`noTarget` is a Python-falsy value such as None, `fluidsynth b` a
FluidSynthPlayer whose `fs` attribute is non-None iff `b`, `pygameOutput` a
pygame.midi.Output, and `unknownTarget` any other object. -/
inductive MidiTarget where
  | noTarget
  | fluidsynth (fsReady : Bool)
  | pygameOutput
  | unknownTarget
deriving DecidableEq, Repr

/-- Whether an `Except` computation returned normally. -/
def exceptOk {ε α : Type} : Except ε α → Bool
  | .ok _ => true
  | .error _ => false

/-- The `try ... except Exception` wrapper the helpers put around their whole
body: any exception is caught and printed and the function returns normally
(with whatever partial dispatch already happened lost to the caller). -/
def tryCatchLog (r : Except String (List DEvent)) : Except String (List DEvent) :=
  match r with
  | .ok evs => .ok evs
  | .error _ => .ok []

/-- `FluidSynthPlayer.noteon` (src/midi/fluidsynth_player.py lines 58-73):
returns silently when `fs` is None, and wraps the backend call in its own
try/except, so it never raises. -/
def fs_noteon (fsReady backendFail : Bool) (channel key velocity : ℤ) :
    List DEvent :=
  if !fsReady then []
  else if backendFail then []
  else [DEvent.noteOn channel key velocity]

/-- `FluidSynthPlayer.noteoff` (lines 75-89): same shape as `noteon`. -/
def fs_noteoff (fsReady backendFail : Bool) (channel key : ℤ) : List DEvent :=
  if !fsReady then []
  else if backendFail then []
  else [DEvent.noteOff channel key]

/-- Body of `send_note_on` inside its try block (lines 12-31): the
FluidSynthPlayer branch re-checks `fs` and calls the player's own
exception-safe `noteon`; the pygame branch calls `note_on` directly, which
may raise; an unknown type only logs. -/
def note_on_attempt (t : MidiTarget) (pitch velocity channel : ℤ)
    (backendFail : Bool) : Except String (List DEvent) :=
  match t with
  | .noTarget => .ok []
  | .fluidsynth fsReady =>
    if fsReady then .ok (fs_noteon fsReady backendFail channel pitch velocity)
    else .ok []
  | .pygameOutput =>
    if backendFail then .error "note_on raised"
    else .ok [DEvent.noteOn channel pitch velocity]
  | .unknownTarget => .ok []

/-- `send_note_on` (src/midi/midi_event_utils.py lines 6-34): early return on
a falsy target, then the whole dispatch wrapped in try/except. -/
def send_note_on (t : MidiTarget) (pitch velocity channel : ℤ)
    (backendFail : Bool) : Except String (List DEvent) :=
  if t = .noTarget then .ok []
  else tryCatchLog (note_on_attempt t pitch velocity channel backendFail)

/-- Body of `send_note_off` inside its try block (lines 44-63). -/
def note_off_attempt (t : MidiTarget) (pitch channel : ℤ)
    (backendFail : Bool) : Except String (List DEvent) :=
  match t with
  | .noTarget => .ok []
  | .fluidsynth fsReady =>
    if fsReady then .ok (fs_noteoff fsReady backendFail channel pitch)
    else .ok []
  | .pygameOutput =>
    if backendFail then .error "note_off raised"
    else .ok [DEvent.noteOff channel pitch]
  | .unknownTarget => .ok []

/-- `send_note_off` (lines 37-66): early return on a falsy target, then the
dispatch wrapped in try/except (the note-off velocity is ignored by both
backends and does not reach the messages). -/
def send_note_off (t : MidiTarget) (pitch velocity channel : ℤ)
    (backendFail : Bool) : Except String (List DEvent) :=
  if t = .noTarget then .ok []
  else tryCatchLog (note_off_attempt t pitch channel backendFail)

/-- The CC 123 (all notes off) broadcast across the 16 channels. -/
def ccAllNotesOff : List DEvent :=
  (List.range 16).map (fun ch => DEvent.cc (ch : ℤ) 123 0)

/-- Body of `send_all_notes_off` inside its try block (lines 77-96): a
FluidSynthPlayer with `fs` set receives `fs.cc(channel, 123, 0)` on each of
the 16 channels (a raw call that may raise), a pygame output receives
`write_short(0xB0+channel, 123, 0)` likewise, anything else only logs. -/
def all_notes_off_attempt (t : MidiTarget) (backendFail : Bool) :
    Except String (List DEvent) :=
  match t with
  | .noTarget => .ok []
  | .fluidsynth fsReady =>
    if fsReady then
      if backendFail then .error "cc raised" else .ok ccAllNotesOff
    else .ok []
  | .pygameOutput =>
    if backendFail then .error "write_short raised" else .ok ccAllNotesOff
  | .unknownTarget => .ok []

/-- `send_all_notes_off` (lines 69-99): early return on a falsy target, then
the broadcast wrapped in try/except. -/
def send_all_notes_off (t : MidiTarget) (backendFail : Bool) :
    Except String (List DEvent) :=
  if t = .noTarget then .ok []
  else tryCatchLog (all_notes_off_attempt t backendFail)

open PlaybackController

/-- The note of the spec's own test scenario (section 8): pitch 60,
velocity 100, spanning 0.0-1.0 on channel 0. -/
def demoNote : Note := ⟨60, 100, 0, 1, 0⟩

/-- A controller that is actively playing from anchor 0 at tempo scale 1. -/
def c9State : PCState :=
  { initState true with notes := [demoNote], note_scheduler := true,
                        is_playing_internal := true,
                        is_playing_for_scheduler := true }

/-- The reachability invariant the transport theorems lean on: the tempo
scale factor is positive (it starts at 1 and set_tempo only installs
bpm/120 for bpm > 0), and a controller whose sink never initialized is
never actively playing (play refuses to start without a sink). -/
def ControllerInv (s : PCState) : Prop :=
  0 < s.tempo_scale_factor ∧
  (s.fluidsynth_player = false → s.is_playing_internal = false)

/-- A fresh controller satisfies the invariant. -/
theorem inv_initState (avail : Bool) : ControllerInv (initState avail) := by
  constructor
  · norm_num [initState]
  · intro _; rfl

/-- get_current_position preserves the invariant. -/
theorem inv_get_current_position (s : PCState) (now : ℚ) (h : ControllerInv s) :
    ControllerInv (get_current_position s now).2 := by
  obtain ⟨h1, h2⟩ := h
  obtain ⟨av, sch, fl, ns, pi, pfs, pa, ct, pr, pt, bpm, f⟩ := s
  cases pi <;> cases pa <;> exact ⟨h1, h2⟩

/-- play preserves the invariant. -/
theorem inv_play (s : PCState) (now : ℚ) (h : ControllerInv s) : ControllerInv (play s now).1 := by
  obtain ⟨h1, h2⟩ := h
  obtain ⟨av, sch, fl, ns, pi, pfs, pa, ct, pr, pt, bpm, f⟩ := s
  cases av <;> cases pi <;> cases pa <;> by_cases hn : ns = [] <;>
    simp_all [play, ensure_scheduler, ControllerInv]

/-- pause preserves the invariant. -/
theorem inv_pause (s : PCState) (now : ℚ) (h : ControllerInv s) :
    ControllerInv (pause s now).1 := by
  obtain ⟨h1, h2⟩ := h
  obtain ⟨av, sch, fl, ns, pi, pfs, pa, ct, pr, pt, bpm, f⟩ := s
  cases av <;> cases pi <;> cases pa <;>
    simp_all [pause, get_current_position, ControllerInv]

/-- stop preserves the invariant. -/
theorem inv_stop (s : PCState) (h : ControllerInv s) : ControllerInv (stop s).1 := by
  obtain ⟨h1, h2⟩ := h
  obtain ⟨av, sch, fl, ns, pi, pfs, pa, ct, pr, pt, bpm, f⟩ := s
  cases av <;> cases sch <;> simp_all [stop, ControllerInv]

/-- seek preserves the invariant. -/
theorem inv_seek (s : PCState) (t now : ℚ) (h : ControllerInv s) :
    ControllerInv (seek s t now).1 := by
  obtain ⟨h1, h2⟩ := h
  obtain ⟨av, sch, fl, ns, pi, pfs, pa, ct, pr, pt, bpm, f⟩ := s
  cases av <;> cases sch <;> cases pi <;> cases pa <;>
    simp_all [seek, ControllerInv]

/-- set_tempo preserves the invariant. -/
theorem inv_set_tempo (s : PCState) (bpm now : ℚ) (h : ControllerInv s) :
    ControllerInv (set_tempo s bpm now) := by
  obtain ⟨h1, h2⟩ := h
  by_cases hb : bpm ≤ 0
  · simpa [set_tempo, hb] using ⟨h1, h2⟩
  · have hbpos : 0 < bpm / 120 := div_pos (not_le.mp hb) (by norm_num)
    obtain ⟨av, sch, fl, ns, pi, pfs, pa, ct, pr, pt, bpm0, f⟩ := s
    unfold set_tempo
    rw [if_neg hb]
    cases pi <;> cases pa <;>
      simp_all [get_current_position, ControllerInv]

/-- set_notes preserves the invariant. -/
theorem inv_set_notes (s : PCState) (notes : List Note) (h : ControllerInv s) :
    ControllerInv (set_notes s notes).1 := by
  obtain ⟨h1, h2⟩ := h
  obtain ⟨av, sch, fl, ns, pi, pfs, pa, ct, pr, pt, bpm, f⟩ := s
  cases av <;> cases sch <;>
    simp_all [set_notes, stop, ensure_scheduler, ControllerInv]

/-- C6: for every bpm <= 0, set_tempo returns before touching anything: the
whole controller state (mode flags, tempo fields, times, anchor) is
unchanged and nothing is raised. -/
theorem C6_set_tempo_nonpositive_noop (s : PCState) (bpm now : ℚ)
    (h : bpm ≤ 0) : set_tempo s bpm now = s := by
  simp [set_tempo, h]

/-- Witness for C6 at bpm = 0 on a freshly initialized controller. -/
theorem C6_set_tempo_nonpositive_noop_witness :
    set_tempo (initState true) 0 5 = initState true :=
  C6_set_tempo_nonpositive_noop (initState true) 0 5 (by norm_num)

/-- C7: stop is idempotent — a second stop reproduces the exact state of the
first (all flags, stored times, tempo fields, the lot). -/
theorem C7_stop_idempotent (s : PCState) :
    (stop (stop s).1).1 = (stop s).1 := by
  obtain ⟨av, sch, fl, ns, pi, pfs, pa, ct, pr, pt, bpm, f⟩ := s
  cases sch <;> cases av <;> simp [stop]

/-- C8: play is a transport-state no-op — the result differs from the input
in at most the scheduler-object attribute (not a Transport State field) and
emits no dispatch and no thread start — whenever the sink is unavailable,
the note list is empty, or the controller is already actively playing. -/
theorem C8_play_noop (s : PCState) (now : ℚ)
    (h : s.fluidsynth_player = false ∨ s.notes = [] ∨
         (s.is_playing_internal = true ∧ s.paused = false)) :
    (play s now).2 = [] ∧
    (play s now).1 = { s with note_scheduler := (play s now).1.note_scheduler } := by
  obtain ⟨av, sch, fl, ns, pi, pfs, pa, ct, pr, pt, bpm, f⟩ := s
  rcases h with h | h | ⟨h1, h2⟩ <;> cases av <;>
    by_cases hn : ns = [] <;> simp_all [play, ensure_scheduler]

/-- Witness for C8: play on an initialized controller with an empty note
list changes nothing and emits nothing. -/
theorem C8_play_noop_witness :
    (play (initState true) 3).2 = [] ∧
    (play (initState true) 3).1 =
      { initState true with
          note_scheduler := (play (initState true) 3).1.note_scheduler } :=
  C8_play_noop (initState true) 3 (Or.inr (Or.inl rfl))

/-- C3: seek(t) immediately followed by get_current_position() returns
max(0,t) in every prior mode.  Hypotheses: the tempo scale factor is
positive (an invariant: it starts at 1 and set_tempo only installs bpm/120
for bpm > 0), and a controller without a sink is never actively playing (an
invariant: play() refuses to start without a sink). -/
theorem C3_seek_then_get (s : PCState) (t now : ℚ)
    (hf : 0 < s.tempo_scale_factor)
    (hr : s.fluidsynth_player = false → s.is_playing_internal = false) :
    (get_current_position (seek s t now).1 now).1 = max 0 t := by
  obtain ⟨av, sch, fl, ns, pi, pfs, pa, ct, pr, pt, bpm, f⟩ := s
  have hf0 : f ≠ 0 := ne_of_gt hf
  cases av <;> cases pi <;> cases pa <;> cases sch <;>
    simp_all [seek, get_current_position] <;> field_simp

/-- Witness for C3: a paused controller at tempo scale 1, sought to -2,
reads back position 0 (the clamp). -/
theorem C3_seek_then_get_witness :
    (get_current_position
        (seek { initState true with paused := true } (-2) 7).1 7).1 =
      max 0 (-2) :=
  C3_seek_then_get { initState true with paused := true } (-2) 7
    (by norm_num [initState]) (by intro h; rfl)

/-- C5: for bpm > 0, set_tempo leaves the position read at the same instant
unchanged in every mode, and the subsequent pacing factor is bpm/120. -/
theorem C5_set_tempo_position_continuous (s : PCState) (bpm now : ℚ)
    (h : 0 < bpm) :
    (get_current_position (set_tempo s bpm now) now).1 =
      (get_current_position s now).1 ∧
    (set_tempo s bpm now).tempo_scale_factor = bpm / 120 := by
  have hb : bpm ≠ 0 := ne_of_gt h
  have hb' : ¬bpm ≤ 0 := not_le.mpr h
  obtain ⟨av, sch, fl, ns, pi, pfs, pa, ct, pr, pt, bpm0, f⟩ := s
  unfold set_tempo
  rw [if_neg hb']
  cases pi <;> cases pa <;> simp [get_current_position] <;>
    field_simp <;> ring

/-- Witness for C5: doubling the tempo to 240 while playing does not move
the position read at the instant of the change. -/
theorem C5_set_tempo_position_continuous_witness :
    (get_current_position
        (set_tempo { initState true with is_playing_internal := true } 240 3)
        3).1 =
      (get_current_position { initState true with is_playing_internal := true }
        3).1 ∧
    (set_tempo { initState true with is_playing_internal := true } 240
        3).tempo_scale_factor = 240 / 120 :=
  C5_set_tempo_position_continuous
    { initState true with is_playing_internal := true } 240 3 (by norm_num)

/-- Counterexample to C9 as stated: get_current_position is not a pure
read - on a playing controller it writes the computed position into
`current_playback_time_sec`, so the post-call state differs from the
pre-call state. -/
theorem C9_counterexample :
    (get_current_position c9State 1).2 ≠ c9State := by
  norm_num [get_current_position, c9State, initState, demoNote]

/-- C9 amended: get_current_position returns the live wall-clock-derived
position while Playing - and caches exactly that value into
`current_playback_time_sec`, its only state effect - and returns the frozen
pause / stored position with no state effect while Paused / Stopped. -/
theorem C9_get_position_modes (s : PCState) (now : ℚ) :
    (s.is_playing_internal = true → s.paused = false →
      (get_current_position s now).1 =
        (now - s.playback_start_real_time) * s.tempo_scale_factor ∧
      (get_current_position s now).2 =
        { s with current_playback_time_sec := (get_current_position s now).1 }) ∧
    (s.paused = true →
      get_current_position s now = (s.pause_start_time_sec, s)) ∧
    (s.is_playing_internal = false → s.paused = false →
      get_current_position s now = (s.current_playback_time_sec, s)) := by
  obtain ⟨av, sch, fl, ns, pi, pfs, pa, ct, pr, pt, bpm, f⟩ := s
  cases pi <;> cases pa <;> simp [get_current_position]

/-- Witness for C9 amended, on the playing controller `c9State` at time 1. -/
theorem C9_get_position_modes_witness :
    (get_current_position c9State 1).1 =
      (1 - c9State.playback_start_real_time) * c9State.tempo_scale_factor ∧
    (get_current_position c9State 1).2 =
      { c9State with
          current_playback_time_sec := (get_current_position c9State 1).1 } :=
  (C9_get_position_modes c9State 1).1 rfl rfl

/-- C4 failing run: start the demo note list playing at wall time 0; at wall
time 5 the live position reads 5, yet pause() stores pause position 0 (its
get_current_position call happens after the mode flags are flipped, so it
returns the stale pause value), and the subsequent play() resumes at
position 0 - a 5-second backward jump across the pause/resume pair. -/
theorem C4_pause_resume_position_lost :
    (get_current_position (play { initState true with notes := [demoNote] } 0).1
        5).1 = 5 ∧
    ((pause (play { initState true with notes := [demoNote] } 0).1 5).1
        ).pause_start_time_sec = 0 ∧
    (get_current_position
        (play ((pause (play { initState true with notes := [demoNote] } 0).1
            5).1) 5).1 5).1 = 0 := by
  norm_num [play, pause, get_current_position, ensure_scheduler, initState,
    demoNote]

/-- C2 failing behaviour: cleanup() always raises - its
`self.device_manager.close_device()` line dereferences an attribute that
`__init__` never creates, in every controller state. -/
theorem C2_cleanup_raises (s : PCState) : (cleanup s).2 = true := rfl

/-- C10: the three dispatch helpers return normally for every combination of
target (including a falsy target, a half-initialized FluidSynthPlayer and an
unknown object type) and argument values, whether or not the backend call
raises. -/
theorem C10_dispatch_helpers_never_raise :
    (∀ t pitch vel ch bf, exceptOk (send_note_on t pitch vel ch bf) = true) ∧
    (∀ t pitch vel ch bf, exceptOk (send_note_off t pitch vel ch bf) = true) ∧
    (∀ t bf, exceptOk (send_all_notes_off t bf) = true) := by
  refine ⟨fun t p v c bf => ?_, fun t p v c bf => ?_, fun t bf => ?_⟩ <;>
    cases bf <;> rcases t with _ | fs | _ | _ <;>
      first | rfl | (cases fs <;> rfl)

namespace NoteScheduler

theorem evsFor_append (i : ℕ) (a b : List SEv) :
    evsFor i (a ++ b) = evsFor i a ++ evsFor i b := by
  simp [evsFor]

/-- Events of a pass over slots numbered from `i0` have no member tagged
with an index below `i0`. -/
theorem evsFor_passEvs_of_lt (pred : Slot → Bool) (ev : ℕ → Slot → SEv)
    (hev : ∀ k s, (ev k s).idx = k) (slots : List Slot) :
    ∀ i0 i : ℕ, i < i0 → evsFor i (passEvs pred ev slots i0) = [] := by
  induction slots with
  | nil => intro i0 i h; rfl
  | cons s rest ih =>
    intro i0 i h
    rw [passEvs, evsFor_append, ih (i0 + 1) i (Nat.lt_succ_of_lt h)]
    have hne : (ev i0 s).idx ≠ i := by rw [hev]; exact (Nat.ne_of_lt h).symm
    split <;> simp [evsFor, List.filter_cons, hne]

/-- Projecting one pass to a single slot: the slot at offset `j` contributes
its own (possible) event and nothing else. -/
theorem evsFor_passEvs (pred : Slot → Bool) (ev : ℕ → Slot → SEv)
    (hev : ∀ k s, (ev k s).idx = k) (slots : List Slot) :
    ∀ (i0 j : ℕ) (h : j < slots.length),
      evsFor (i0 + j) (passEvs pred ev slots i0) =
        if pred slots[j] then [ev (i0 + j) slots[j]] else [] := by
  induction slots with
  | nil => intro i0 j h; exact absurd h (Nat.not_lt_zero j)
  | cons s rest ih =>
    intro i0 j h
    rw [passEvs, evsFor_append]
    cases j with
    | zero =>
      rw [evsFor_passEvs_of_lt pred ev hev rest (i0 + 1) (i0 + 0) (by omega)]
      split <;> simp_all [evsFor, List.filter_cons, hev, beq_iff_eq]
    | succ j' =>
      have hx : i0 + (j' + 1) = (i0 + 1) + j' := by omega
      rw [hx, ih (i0 + 1) j' (by simpa using h)]
      have hne : (ev i0 s).idx ≠ (i0 + 1) + j' := by rw [hev]; omega
      split <;> simp [evsFor, List.filter_cons, hne]

/-- Projecting a whole run to a single slot: the events of the note at list
position `j` are exactly its `noteTrace`, in order. -/
theorem evsFor_runSched (ps : List ℚ) :
    ∀ (slots : List Slot) (j : ℕ) (h : j < slots.length),
      evsFor j (runSched slots ps) = noteTrace j slots[j] ps := by
  induction ps with
  | nil => intro slots j h; rfl
  | cons p ps ih =>
    intro slots j h
    have hon : ∀ k s, (onEv k s).idx = k := fun _ _ => rfl
    have hoff : ∀ k s, (offEv k s).idx = k := fun _ _ => rfl
    have h1 : j < (slots.map (markOn p)).length := by simpa using h
    have h2 : j < ((slots.map (markOn p)).map (markOff p)).length := by
      simpa using h
    have e0 := evsFor_passEvs (fireOn p) onEv hon slots 0 j h
    have e1 := evsFor_passEvs (fireOff p) offEv hoff (slots.map (markOn p)) 0 j h1
    rw [Nat.zero_add] at e0 e1
    rw [runSched, evsFor_append, evsFor_append, e0, e1, ih _ j h2]
    simp [noteTrace, List.getElem_map]

/-- A note whose bookkeeping says started-and-no-longer-active emits nothing
for the rest of the run. -/
theorem noteTrace_done (i : ℕ) (n : Note) (ps : List ℚ) :
    noteTrace i ⟨n, true, false⟩ ps = [] := by
  induction ps with
  | nil => rfl
  | cons p ps ih =>
    have h1 : fireOn p ⟨n, true, false⟩ = false := by simp [fireOn]
    have h3 : fireOff p ⟨n, true, false⟩ = false := by simp [fireOff]
    simp [noteTrace, markOn, markOff, h1, h3, ih]

/-- A currently sounding note emits exactly its note-off, at the first wake
at or past its end time (which the hypothesis provides). -/
theorem noteTrace_sounding (i : ℕ) (n : Note) :
    ∀ ps : List ℚ, (∃ q ∈ ps, n.end_time ≤ q) →
      noteTrace i ⟨n, true, true⟩ ps = [⟨i, false, n.channel, n.pitch⟩] := by
  intro ps
  induction ps with
  | nil =>
    intro hend
    obtain ⟨q, hq, _⟩ := hend
    exact absurd hq (List.not_mem_nil q)
  | cons p ps ih =>
    intro hend
    have h1 : fireOn p ⟨n, true, true⟩ = false := by simp [fireOn]
    have h2 : markOn p ⟨n, true, true⟩ = ⟨n, true, true⟩ := by
      simp [markOn, h1]
    by_cases hle : n.end_time ≤ p
    · have h3 : fireOff p ⟨n, true, true⟩ = true := by simp [fireOff, hle]
      have h4 : markOff p ⟨n, true, true⟩ = ⟨n, true, false⟩ := by
        simp [markOff, h3]
      simp [noteTrace, h1, h2, h3, h4, noteTrace_done, offEv]
    · have h3 : fireOff p ⟨n, true, true⟩ = false := by simp [fireOff, hle]
      have h4 : markOff p ⟨n, true, true⟩ = ⟨n, true, true⟩ := by
        simp [markOff, h3]
      have hend' : ∃ q ∈ ps, n.end_time ≤ q := by
        obtain ⟨q, hq, hq2⟩ := hend
        rcases List.mem_cons.mp hq with rfl | hq'
        · exact absurd hq2 hle
        · exact ⟨q, hq', hq2⟩
      simp [noteTrace, h1, h2, h3, h4, ih hend']

/-- The per-note run: a fresh (never started) note, over a non-decreasing
wake sequence that visits its half-open window at least once and later
reaches its end time, emits exactly one note-on followed by exactly one
note-off, both carrying the note's channel and pitch. -/
theorem noteTrace_idle (i : ℕ) (n : Note) :
    ∀ ps : List ℚ, List.Sorted (· ≤ ·) ps →
      (∃ q ∈ ps, n.start_time ≤ q ∧ q < n.end_time) →
      (∃ q ∈ ps, n.end_time ≤ q) →
      noteTrace i ⟨n, false, false⟩ ps =
        [⟨i, true, n.channel, n.pitch⟩, ⟨i, false, n.channel, n.pitch⟩] := by
  intro ps
  induction ps with
  | nil =>
    intro _ hhit _
    obtain ⟨q, hq, _⟩ := hhit
    exact absurd hq (List.not_mem_nil q)
  | cons p ps ih =>
    intro hsort hhit hend
    obtain ⟨hple, hsort'⟩ := List.sorted_cons.mp hsort
    by_cases hOn : n.start_time ≤ p ∧ p < n.end_time
    · have h1 : fireOn p ⟨n, false, false⟩ = true := by
        simp [fireOn, hOn.1, hOn.2]
      have h2 : markOn p ⟨n, false, false⟩ = ⟨n, true, true⟩ := by
        simp [markOn, h1]
      have h3 : fireOff p ⟨n, true, true⟩ = false := by
        simp [fireOff, not_le.mpr hOn.2]
      have h4 : markOff p ⟨n, true, true⟩ = ⟨n, true, true⟩ := by
        simp [markOff, h3]
      have hend' : ∃ q ∈ ps, n.end_time ≤ q := by
        obtain ⟨q, hq, hq2⟩ := hend
        rcases List.mem_cons.mp hq with rfl | hq'
        · exact absurd hq2 (not_le.mpr hOn.2)
        · exact ⟨q, hq', hq2⟩
      simp [noteTrace, h1, h2, h3, h4, noteTrace_sounding i n ps hend', onEv]
    · have h1 : fireOn p ⟨n, false, false⟩ = false := by
        rcases not_and_or.mp hOn with hx | hx
        · simp [fireOn, hx]
        · simp [fireOn, hx]
      have h2 : markOn p ⟨n, false, false⟩ = ⟨n, false, false⟩ := by
        simp [markOn, h1]
      have h3 : fireOff p ⟨n, false, false⟩ = false := by simp [fireOff]
      have h4 : markOff p ⟨n, false, false⟩ = ⟨n, false, false⟩ := by
        simp [markOff, h3]
      have hhit' : ∃ q ∈ ps, n.start_time ≤ q ∧ q < n.end_time := by
        obtain ⟨q, hq, hq2⟩ := hhit
        rcases List.mem_cons.mp hq with rfl | hq'
        · exact absurd hq2 hOn
        · exact ⟨q, hq', hq2⟩
      have hend' : ∃ q ∈ ps, n.end_time ≤ q := by
        obtain ⟨q', hq', hq2'⟩ := hend
        rcases List.mem_cons.mp hq' with rfl | hq''
        · exfalso
          obtain ⟨q, hq, hqs, hqe⟩ := hhit'
          exact absurd (lt_of_lt_of_le hqe (le_trans hq2' (hple q hq)))
            (lt_irrefl q)
        · exact ⟨q', hq'', hq2'⟩
      simp [noteTrace, h1, h2, h3, h4, ih hsort' hhit' hend']

end NoteScheduler

/-- C1: with notes installed via set_notes and the scheduler bookkeeping
fresh at position 0, over a full playing run whose wake positions are
non-decreasing, visit every note's half-open [start_time, end_time) window
at least once (the spec's small fixed polling interval against the data
model's positive-length notes), and go on past every end_time, each
installed note receives exactly one note-on followed later by exactly one
note-off, both carrying that note's channel and pitch, the note-on strictly
first.  The scheduler itself is modelled from the spec (src has no
note_scheduler.py). -/
theorem C1_scheduler_exactly_one_on_one_off (notes : List Note) (ps : List ℚ)
    (hsort : List.Sorted (· ≤ ·) ps)
    (hhit : ∀ n ∈ notes, ∃ q ∈ ps, n.start_time ≤ q ∧ q < n.end_time)
    (hend : ∀ n ∈ notes, ∃ q ∈ ps, n.end_time ≤ q)
    (j : ℕ) (hj : j < notes.length) :
    NoteScheduler.evsFor j
        (NoteScheduler.runSched (NoteScheduler.initSlots notes) ps) =
      [⟨j, true, notes[j].channel, notes[j].pitch⟩,
       ⟨j, false, notes[j].channel, notes[j].pitch⟩] := by
  have hj' : j < (NoteScheduler.initSlots notes).length := by
    simpa [NoteScheduler.initSlots] using hj
  rw [NoteScheduler.evsFor_runSched ps (NoteScheduler.initSlots notes) j hj']
  have hg : (NoteScheduler.initSlots notes)[j] = ⟨notes[j], false, false⟩ := by
    simp [NoteScheduler.initSlots]
  rw [hg]
  exact NoteScheduler.noteTrace_idle j notes[j] ps hsort
    (hhit notes[j] (List.getElem_mem hj)) (hend notes[j] (List.getElem_mem hj))

/-- Witness for C1: the spec section 8 scenario note (pitch 60, velocity
100, window 0-1, channel 0) over the wakes 0, 1/2, 1, 2 receives exactly
note-on(ch 0, p 60) then note-off(ch 0, p 60). -/
theorem C1_scheduler_exactly_one_on_one_off_witness :
    NoteScheduler.evsFor 0
        (NoteScheduler.runSched (NoteScheduler.initSlots [demoNote])
          [0, 1/2, 1, 2]) =
      [⟨0, true, 0, 60⟩, ⟨0, false, 0, 60⟩] :=
  C1_scheduler_exactly_one_on_one_off [demoNote] [0, 1/2, 1, 2]
    (by norm_num [List.sorted_cons])
    (by
      intro n hn
      rw [List.mem_singleton.mp hn]
      exact ⟨0, by norm_num, by norm_num [demoNote]⟩)
    (by
      intro n hn
      rw [List.mem_singleton.mp hn]
      exact ⟨1, by norm_num, by norm_num [demoNote]⟩)
    0 (by norm_num)
